import Mathlib

/-!
Verification of the marketplace-publishing core of the ResaleHub backend.

The definitions below are a shallow embedding of the relevant Python code:
  - `app/routers/marketplaces.py` (sku sanitizer, condition mapping, image
    selection, eBay publish / prepare-offer / sync pipelines, disconnect
    endpoints, Poshmark publish gate);
  - `app/services/ebay_client.py` (`get_valid_ebay_access_token`);
  - `app/services/poshmark_client.py` (form field fill of
    `publish_listing_to_poshmark`).

The database session is modelled as explicit state (lists of rows); remote
HTTP interactions are modelled as oracle inputs describing the responses the
remote side returns.  Machine reals never occur on the verified paths: prices
are SQL `Numeric(10,2)` values, modelled as rationals.
-/

namespace ResaleHub

/-! ### Python string primitives used by the code -/

/-- `needle` occurs as a contiguous segment of `hay` (Python's `in` on `str`). -/
def listContainsSeg (needle hay : List Char) : Bool :=
  match hay with
  | [] => needle.isEmpty
  | _ :: t => needle.isPrefixOf hay || listContainsSeg needle t

/-- Python `needle in hay` for strings. -/
def strContains (hay needle : String) : Bool :=
  listContainsSeg needle.data hay.data

/-- Python `s.startswith(p)`. -/
def strStartsWith (s p : String) : Bool :=
  p.data.isPrefixOf s.data

/-- Python `s.strip(chars)`: drop characters of `cs` from both ends. -/
def stripChars (cs : List Char) (l : List Char) : List Char :=
  ((l.dropWhile (cs.contains ·)).reverse.dropWhile (cs.contains ·)).reverse

/-- ASCII whitespace set of Python `str.strip()` (the sku values the router
handles are ASCII). -/
def pyWhitespace : List Char := [' ', '\t', '\n', '\r', '\x0b', '\x0c']

/-- Python `s.strip()`. -/
def pyStrip (s : String) : String :=
  String.mk (stripChars pyWhitespace s.data)

/-- ASCII lower-casing of one character, as Python `str.lower()` acts on the
ASCII condition strings the router handles. -/
def asciiLowerChar (c : Char) : Char :=
  if 'A' ≤ c ∧ c ≤ 'Z' then Char.ofNat (c.toNat + 32) else c

/-- ASCII `str.lower()`. -/
def asciiLower (s : String) : String :=
  String.mk (s.data.map asciiLowerChar)

/-! ### `_sanitize_sku` (`app/routers/marketplaces.py`, lines 59-65) -/

/-- The character class letters, digits, underscore, slash, dash of the first `re.sub`. -/
def skuAllowed (c : Char) : Bool :=
  ('a' ≤ c && c ≤ 'z') || ('A' ≤ c && c ≤ 'Z') || ('0' ≤ c && c ≤ '9') ||
    c == '_' || c == '/' || c == '-'

/-- `re.sub(r'-+', '-', s)`: collapse each maximal run of `'-'` to one. -/
def collapseDashes : List Char → List Char
  | [] => []
  | [c] => [c]
  | a :: b :: rest =>
      if a == '-' && b == '-' then collapseDashes (b :: rest)
      else a :: collapseDashes (b :: rest)

/-- `_sanitize_sku`: replace characters outside letters, digits, underscore, slash, dash by `'-'`,
collapse runs of `'-'`, then `.strip('-').strip('_')` (note the order: all
leading/trailing `'-'` first, then all leading/trailing `'_'`), and default
to `"SKU"` when the result is empty. -/
def sanitizeSku (raw : String) : String :=
  let s1 := raw.data.map (fun c => if skuAllowed c then c else '-')
  let s2 := collapseDashes s1
  let s3 := stripChars ['_'] (stripChars ['-'] s2)
  if s3.isEmpty then "SKU" else String.mk s3

/-! ### Condition mapping (`publish_to_ebay`, lines 308-314) -/

/-- The eBay condition computed by `publish_to_ebay`: start from `"NEW"`; when
the listing's condition is truthy (present and non-empty), lower-case it and
test substrings in priority order `new`, `like`, `good`/`used`, `parts`. -/
def mapEbayCondition (condition : Option String) : String :=
  match condition with
  | none => "NEW"
  | some s =>
      if s = "" then "NEW"
      else
        let c := asciiLower s
        if strContains c "new" then "NEW"
        else if strContains c "like" then "LIKE_NEW"
        else if strContains c "good" || strContains c "used" then "USED_GOOD"
        else if strContains c "parts" then "FOR_PARTS_OR_NOT_WORKING"
        else "NEW"

/-! ### Image URL filter (`publish_to_ebay`, lines 316-336) -/

/-- The per-URL test of the image loop: `full_url.startswith("http") and
"127.0.0.1" not in full_url and "localhost" not in full_url`. -/
def keepImageUrl (u : String) : Bool :=
  strStartsWith u "http" && !(strContains u "127.0.0.1") && !(strContains u "localhost")

/-- The spec's notion used by claim C5: an absolute http(s) URL. -/
def isAbsoluteHttpUrl (u : String) : Bool :=
  strStartsWith u "http://" || strStartsWith u "https://"

/-- Image selection as it reaches the inventory payload: filter the ordered
URL list with `keepImageUrl`, then cap at the first 12 (`image_urls[:12]`). -/
def selectImageUrls (urls : List String) : List String :=
  (urls.filter keepImageUrl).take 12

/-! ### Python `int(float(...))` on `Numeric(10,2)` prices -/

/-- Python `int(x)` for a rational `x`: truncation toward zero.  (`Numeric(10,2)`
column values convert to `float` with error far below `0.01`, so truncation of
the exact rational is faithful.) -/
def pyInt (q : ℚ) : ℤ :=
  if 0 ≤ q then q.floor else -((-q).floor)

/-! ### Data model

Rows of the four tables the marketplace router touches.  `Numeric(10,2)`
prices are modelled exactly as an integer number of cents; timestamps as
integer seconds.  String columns that the code tests for Python truthiness
are `Option String` (`none` = SQL NULL). -/

structure ListingRow where
  id : Nat
  ownerId : Nat
  title : Option String
  description : Option String
  priceCents : Option ℤ
  condition : Option String
  sku : Option String
  deriving DecidableEq, Repr

structure ImageRow where
  id : Nat
  listingId : Nat
  filePath : String
  sortOrder : Nat
  deriving DecidableEq, Repr

structure LinkRow where
  rowId : Nat
  listingId : Nat
  marketplace : String
  status : Option String
  externalItemId : Option String
  sku : Option String
  offerId : Option String
  externalUrl : Option String
  deriving DecidableEq, Repr

structure AccountRow where
  rowId : Nat
  userId : Nat
  marketplace : String
  username : Option String
  accessToken : Option String
  refreshToken : Option String
  tokenExpiresAt : Option ℤ
  deriving DecidableEq, Repr

/-- The persistent database state.  `images` is kept in ascending
`sortOrder`, matching the `order_by(ListingImage.sort_order.asc())` queries.
`nextId` supplies primary keys for newly inserted rows. -/
structure Db where
  listings : List ListingRow
  images : List ImageRow
  links : List LinkRow
  accounts : List AccountRow
  nextId : Nat
  deriving DecidableEq, Repr

/-- Replace the first element satisfying `p` (the ORM mutates the single
object returned by `.first()` in place). -/
def replaceFirst (p : α → Bool) (f : α → α) : List α → List α
  | [] => []
  | a :: as => if p a then f a :: as else a :: replaceFirst p f as

/-- Remove the first element satisfying `p` (`db.delete(obj)` on the object
returned by `.first()`). -/
def removeFirst (p : α → Bool) : List α → List α
  | [] => []
  | a :: as => if p a then as else a :: removeFirst p as

def isLinkFor (lid : Nat) (mkt : String) (r : LinkRow) : Bool :=
  r.listingId == lid && r.marketplace == mkt

/-- `db.query(ListingMarketplace).filter(listing_id==…, marketplace==…).first()`. -/
def findLink (db : Db) (lid : Nat) (mkt : String) : Option LinkRow :=
  db.links.find? (isLinkFor lid mkt)

/-- A freshly constructed `ListingMarketplace(listing_id=…, marketplace=…)`:
every other column is unset until assigned. -/
def newLink (rowId lid : Nat) (mkt : String) : LinkRow :=
  ⟨rowId, lid, mkt, none, none, none, none, none⟩

/-- The load-or-create-then-mutate pattern shared by `publish_to_ebay`,
`create_inventory_and_offer`, `sync_ebay_inventory` and `publish_to_poshmark`:
load the row for the pair if present and mutate it in place, else insert a
new row and mutate that. -/
def upsertLink (db : Db) (lid : Nat) (mkt : String) (mutate : LinkRow → LinkRow) : Db :=
  match findLink db lid mkt with
  | some _ => { db with links := replaceFirst (isLinkFor lid mkt) mutate db.links }
  | none => { db with
      links := db.links ++ [mutate (newLink db.nextId lid mkt)]
      nextId := db.nextId + 1 }

def linkCountFor (db : Db) (lid : Nat) (mkt : String) : Nat :=
  (db.links.filter (isLinkFor lid mkt)).length

/-- `_get_owned_listing_or_404`. -/
def findOwnedListing (db : Db) (lid uid : Nat) : Option ListingRow :=
  db.listings.find? (fun l => l.id == lid && l.ownerId == uid)

def isAccountOf (uid : Nat) (mkt : String) (a : AccountRow) : Bool :=
  a.userId == uid && a.marketplace == mkt

def findAccount (db : Db) (uid : Nat) (mkt : String) : Option AccountRow :=
  db.accounts.find? (isAccountOf uid mkt)

/-- Images of a listing, in sort order (see `Db.images`). -/
def imagesFor (db : Db) (lid : Nat) : List ImageRow :=
  db.images.filter (fun i => i.listingId == lid)

/-! ### Disconnect endpoints (`marketplaces.py`, lines 585-599) -/

/-- Shared body of both disconnect endpoints: delete the row if the account
query finds one, otherwise do nothing; never an error. -/
def disconnectAccount (db : Db) (uid : Nat) (mkt : String) : Db :=
  match findAccount db uid mkt with
  | some _ =>
      { db with accounts := removeFirst (isAccountOf uid mkt) db.accounts }
  | none => db

def poshmarkDisconnect (db : Db) (uid : Nat) : String × Db :=
  ("Poshmark account disconnected", disconnectAccount db uid "poshmark")

def ebayDisconnect (db : Db) (uid : Nat) : String × Db :=
  ("Disconnected", disconnectAccount db uid "ebay")

/-! ### Token lifecycle (`app/services/ebay_client.py`, `get_valid_ebay_access_token`)

Time is an integer number of seconds; the refresh POST is modelled by the
response the token endpoint would return. -/

/-- The refresh response: HTTP status, raw body text, and the parsed JSON
fields the code reads (`access_token`, `expires_in`). -/
structure TokenResponse where
  status : Nat
  body : String
  accessToken : Option String
  expiresIn : Option ℤ
  deriving DecidableEq, Repr

inductive TokenOutcome
  | ok (token : String)
  | authError (msg : String)
  deriving DecidableEq, Repr

/-- Result of one `get_valid_ebay_access_token` call: outcome, database state
after the call, number of network requests issued, number of `db.commit()`
calls (persisted token updates). -/
structure TokenRun where
  outcome : TokenOutcome
  db : Db
  networkCalls : Nat
  commits : Nat
  deriving DecidableEq, Repr

/-- `account.token_expires_at and account.token_expires_at > now + timedelta(minutes=5)`. -/
def tokenFresh (now : ℤ) (expiresAt : Option ℤ) : Bool :=
  match expiresAt with
  | some t => decide (now + 5 * 60 < t)
  | none => false

/-- The account mutation performed after a successful refresh. -/
def refreshMut (now : ℤ) (resp : TokenResponse) (newTok : String) (x : AccountRow) : AccountRow :=
  { x with
      accessToken := some newTok
      tokenExpiresAt := some (now + resp.expiresIn.getD 7200) }

/-- `get_valid_ebay_access_token(db, user)`. -/
def getValidEbayAccessToken (now : ℤ) (resp : TokenResponse) (db : Db) (uid : Nat) : TokenRun :=
  match findAccount db uid "ebay" with
  | none => ⟨.authError "eBay account not connected", db, 0, 0⟩
  | some a =>
    match a.accessToken with
    | none => ⟨.authError "eBay account not connected", db, 0, 0⟩
    | some tok =>
      if tokenFresh now a.tokenExpiresAt then
        ⟨.ok tok, db, 0, 0⟩
      else
        match a.refreshToken with
        | none => ⟨.authError "No refresh_token for eBay account", db, 0, 0⟩
        | some _ =>
          if resp.status ≠ 200 then
            ⟨.authError ("Failed to refresh eBay token: " ++ toString resp.status ++ " " ++ resp.body),
              db, 1, 0⟩
          else
            match resp.accessToken with
            | none => ⟨.authError "No access_token in refresh response", db, 1, 0⟩
            | some newTok =>
              let accounts := replaceFirst (isAccountOf uid "ebay") (refreshMut now resp newTok) db.accounts
              ⟨.ok newTok, { db with accounts := accounts }, 1, 1⟩

/-! ### Database session with explicit commit/rollback

`sync_ebay_inventory` mutates the ORM session throughout its loop and calls
`db.commit()` exactly once at the end, or `db.rollback()` in its `except`
handler.  `Sess` separates the committed (persistent) state from the working
(uncommitted) state of the request's session. -/

structure Sess where
  committed : Db
  working : Db
  commits : Nat
  deriving DecidableEq, Repr

/-- A fresh request-scoped session: nothing pending. -/
def Sess.fresh (db : Db) : Sess := ⟨db, db, 0⟩

/-- An ORM mutation: only the working state changes. -/
def Sess.mutate (s : Sess) (f : Db → Db) : Sess := { s with working := f s.working }

/-- `db.commit()`: the working state becomes persistent. -/
def Sess.commit (s : Sess) : Sess := ⟨s.working, s.working, s.commits + 1⟩

/-- `db.rollback()`: pending mutations are discarded. -/
def Sess.rollback (s : Sess) : Sess := { s with working := s.committed }

/-! ### `sync_ebay_inventory` (`marketplaces.py`, lines 267-289) -/

/-- One remote inventory item; the code only reads its `"sku"` key. -/
structure RemoteItem where
  sku : Option String
  deriving DecidableEq, Repr

/-- `db.query(Listing).filter(owner_id==…, sku==…).first()`. -/
def findListingBySku (db : Db) (uid : Nat) (s : String) : Option ListingRow :=
  db.listings.find? (fun l => l.ownerId == uid && l.sku == some s)

/-- The per-row mutation of the sync loop:
`if lm.status != "published": lm.status = "offer_created"`. -/
def syncMut (r : LinkRow) : LinkRow :=
  if r.status = some "published" then r else { r with status := some "offer_created" }

/-- One iteration of the sync loop for one remote item (skips falsy skus and
skus with no matching owned listing; otherwise upserts the link row). -/
def syncStep (uid : Nat) (db : Db) (item : RemoteItem) : Db :=
  match item.sku with
  | none => db
  | some s =>
    if s = "" then db
    else
      match findListingBySku db uid s with
      | none => db
      | some l => upsertLink db l.id "ebay" syncMut

/-- `sync_ebay_inventory`.  `fetchStatus`/`items` describe the remote
inventory GET; `crash = some k` injects an exception after `k` loop
iterations (any exception inside the `try` block lands in the
`except` handler, which rolls the session back). -/
def runSync (uid : Nat) (fetchStatus : Nat) (items : List RemoteItem) (crash : Option Nat)
    (s : Sess) : Bool × Sess :=
  if fetchStatus ≠ 200 then
    (false, s.rollback)
  else
    match crash with
    | some k =>
        (false, (((items.take k).foldl (fun t it => t.mutate (fun d => syncStep uid d it)) s)).rollback)
    | none =>
        (true, ((items.foldl (fun t it => t.mutate (fun d => syncStep uid d it)) s)).commit)

/-! ### eBay publish pipeline (`publish_to_ebay`, lines 291-382, and
`create_inventory_and_offer`, lines 384-457) -/

structure EbayPolicies where
  fulfillmentPolicyId : String
  paymentPolicyId : String
  returnPolicyId : String
  deriving DecidableEq, Repr

/-- The remote responses one publish invocation can observe.

Every remote call of the pipeline goes through
`get_valid_ebay_access_token`, which on a stale token with a valid refresh
token refreshes it and `db.commit()`s the updated `MarketplaceAccount` row.
The first call of the invocation that refreshes leaves a token valid for
hours, so later calls of the same invocation return it from cache: at most
one such account write happens per invocation, and it happens at the first
remote call — inside `_ensure_business_policies_opted_in` /
`_ensure_merchant_location` / `_get_ebay_policies`, i.e. *before* the
MISSING_POLICIES abort.  `tokenRefreshed = some (tok, exp)` records that
write (new access token and computed expiry); `none` means the cached token
was still fresh (or every refresh attempt failed without persisting).

`policies` is the outcome of `_get_ebay_policies` (override lookup, policy
listing, opt-in, default-policy creation: remote calls and settings reads,
plus at most the token write above); `none` means resolution left fewer
than three ids. -/
structure EbayOracle where
  tokenRefreshed : Option (String × ℤ)
  policies : Option EbayPolicies
  invPutStatus : Nat
  offerCreateStatus : Nat
  offerCreateId : Option String
  offerExistsId : Option String
  publishStatus : Nat
  publishListingId : Option String
  deriving DecidableEq, Repr

inductive PublishOutcome
  | notFound
  | missingPolicies
  | inventoryFailed
  | offerFailed
  | publishFailed
  | published (listingId : Option String)
  | offerPrepared (offerId : Option String)
  deriving DecidableEq, Repr

/-- `raw_sku = listing.sku if (listing.sku and listing.sku.strip()) else
f"USER{uid}-LISTING{id}"`. -/
def computeRawSku (listing : ListingRow) (uid : Nat) : String :=
  match listing.sku with
  | some s =>
      if s = "" ∨ pyStrip s = "" then
        "USER" ++ toString uid ++ "-LISTING" ++ toString listing.id
      else s
  | none => "USER" ++ toString uid ++ "-LISTING" ++ toString listing.id

/-- `sku = _sanitize_sku(raw_sku.strip())`. -/
def computeSku (listing : ListingRow) (uid : Nat) : String :=
  sanitizeSku (pyStrip (computeRawSku listing uid))

/-- The early commit of both eBay endpoints: when the sanitized sku differs
from the stored one it is written back onto the listing row and committed
before policy resolution runs. -/
def persistSku (db : Db) (lid uid : Nat) (sku : String) : Db :=
  let listings := replaceFirst (fun l => l.id == lid && l.ownerId == uid)
    (fun l => { l with sku := some sku }) db.listings
  { db with listings := listings }

/-- The sku block of both eBay endpoints: persist the sanitized sku iff it
differs from the stored value. -/
def skuStep (uid lid : Nat) (listing : ListingRow) (db : Db) : Db :=
  if listing.sku = some (computeSku listing uid) then db
  else persistSku db lid uid (computeSku listing uid)

/-- The offer id both endpoints continue with: the created offer's id on a
successful create, else the id recovered from the "already exists" error. -/
def offerIdOf (o : EbayOracle) : Option String :=
  if o.offerCreateStatus = 200 ∨ o.offerCreateStatus = 201 then o.offerCreateId
  else o.offerExistsId

/-- The account-row commit performed by `get_valid_ebay_access_token` when
the invocation's first remote call refreshes a stale token (see
`EbayOracle.tokenRefreshed`): the new access token and its computed expiry
are written onto the `(uid, "ebay")` account row.  With `tokenRefreshed =
none` nothing is written. -/
def applyTokenRefresh (uid : Nat) (o : EbayOracle) (db : Db) : Db :=
  match o.tokenRefreshed with
  | none => db
  | some (tok, exp) =>
      let accounts := replaceFirst (isAccountOf uid "ebay")
        (fun x => { x with accessToken := some tok, tokenExpiresAt := some exp }) db.accounts
      { db with accounts := accounts }

/-- The ordered full URLs the image loop constructs:
`f"{base_url}{settings.media_url}/{img.file_path}"` for each image row. -/
def imageUrlsFor (db : Db) (lid : Nat) (baseUrl mediaUrl : String) : List String :=
  (imagesFor db lid).map (fun i => baseUrl ++ mediaUrl ++ "/" ++ i.filePath)

/-- The external-url base chosen for the link row. -/
def ebayItemBase (sandbox : Bool) : String :=
  if sandbox then "https://sandbox.ebay.com/itm" else "https://www.ebay.com/itm"

/-- Field assignments performed on the link row by `publish_to_ebay` after a
successful publish call.  `external_url` is only assigned when the returned
listing id is truthy. -/
def publishLinkMut (sandbox : Bool) (listingId : Option String) (sku : String)
    (offerId : Option String) (r : LinkRow) : LinkRow :=
  { r with
      status := some "published"
      externalItemId := listingId
      sku := some sku
      offerId := offerId
      externalUrl :=
        match listingId with
        | some s => if s = "" then r.externalUrl else some (ebayItemBase sandbox ++ "/" ++ s)
        | none => r.externalUrl }

/-- Field assignments performed on the link row by `create_inventory_and_offer`. -/
def prepareLinkMut (sku : String) (offerId : Option String) (r : LinkRow) : LinkRow :=
  { r with
      status := some "offer_created"
      sku := some sku
      offerId := offerId }

/-- `POST /marketplaces/ebay/{listing_id}/publish`.  The sku write comes
first; the merchant-location and policy-resolution calls follow and may
commit a token refresh onto the account row (`applyTokenRefresh`), still
before the policy check; the remaining remote calls (inventory PUT, offer
POST/PUT, publish POST) have no further local effect and appear only
through the oracle's response fields. -/
def publishToEbay (sandbox : Bool) (uid lid : Nat) (o : EbayOracle) (db : Db) :
    PublishOutcome × Db :=
  match findOwnedListing db lid uid with
  | none => (.notFound, db)
  | some listing =>
    let sku := computeSku listing uid
    let db1 := applyTokenRefresh uid o (skuStep uid lid listing db)
    match o.policies with
    | none => (.missingPolicies, db1)
    | some _ =>
      if o.invPutStatus = 200 ∨ o.invPutStatus = 201 ∨ o.invPutStatus = 204 then
        if (o.offerCreateStatus = 200 ∨ o.offerCreateStatus = 201) ∨ o.offerExistsId.isSome then
          if o.publishStatus = 200 ∨ o.publishStatus = 201 then
            (.published o.publishListingId,
              upsertLink db1 lid "ebay" (publishLinkMut sandbox o.publishListingId sku (offerIdOf o)))
          else (.publishFailed, db1)
        else (.offerFailed, db1)
      else (.inventoryFailed, db1)

/-- `POST /marketplaces/ebay/{listing_id}/prepare-offer`: identical up to the
offer step (including the possible token-refresh commit), then stores
`offer_created` without a publish call. -/
def prepareEbayOffer (uid lid : Nat) (o : EbayOracle) (db : Db) :
    PublishOutcome × Db :=
  match findOwnedListing db lid uid with
  | none => (.notFound, db)
  | some listing =>
    let sku := computeSku listing uid
    let db1 := applyTokenRefresh uid o (skuStep uid lid listing db)
    match o.policies with
    | none => (.missingPolicies, db1)
    | some _ =>
      if o.invPutStatus = 200 ∨ o.invPutStatus = 201 ∨ o.invPutStatus = 204 then
        if (o.offerCreateStatus = 200 ∨ o.offerCreateStatus = 201) ∨ o.offerExistsId.isSome then
          (.offerPrepared (offerIdOf o),
            upsertLink db1 lid "ebay" (prepareLinkMut sku (offerIdOf o)))
        else (.offerFailed, db1)
      else (.inventoryFailed, db1)

/-! ### Poshmark publish endpoint (`publish_to_poshmark`, lines 607-626) and
browser form fill (`publish_listing_to_poshmark`, lines 344-356) -/

/-- Outcome of the browser automation run performed by
`poshmark_client.publish_listing` once it is invoked. -/
inductive PoshRemote
  | success (status : String) (externalItemId : Option String) (url : Option String)
  | authFailure
  | publishFailure
  | otherFailure
  deriving DecidableEq, Repr

inductive PoshOutcome
  | notFound
  | noImages
  | published
  | authError
  | publishError
  | serverError
  deriving DecidableEq, Repr

/-- `POST /marketplaces/poshmark/{listing_id}/publish`.  The last component
counts browser automation sessions created by the call. -/
def publishToPoshmark (uid lid : Nat) (remote : PoshRemote) (db : Db) :
    PoshOutcome × Db × Nat :=
  match findOwnedListing db lid uid with
  | none => (.notFound, db, 0)
  | some _ =>
    if (imagesFor db lid).isEmpty then
      (.noImages, db, 0)
    else
      match remote with
      | .success st eid url =>
          (.published,
            upsertLink db lid "poshmark" (fun r =>
              { r with status := some st, externalItemId := eid, externalUrl := url }),
            1)
      | .authFailure => (.authError, db, 1)
      | .publishFailure => (.publishError, db, 1)
      | .otherFailure => (.serverError, db, 1)

/-- Python `x or default` for string fields. -/
def pyOrStr (s : Option String) (d : String) : String :=
  match s with
  | none => d
  | some t => if t = "" then d else t

/-- `str(int(float(listing.price or 0)))` with the price in cents:
truncation toward zero of `cents / 100`. -/
def filledPrice (priceCents : Option ℤ) : String :=
  toString ((priceCents.getD 0).tdiv 100)

/-- The values `publish_listing_to_poshmark` types into the form: title,
description, and the two price inputs (lines 348-356). -/
structure PoshFormFill where
  title : String
  description : String
  originalPrice : String
  currentPrice : String
  deriving DecidableEq, Repr

def fillPoshmarkFields (listing : ListingRow) : PoshFormFill :=
  { title := pyOrStr listing.title "Untitled"
    description := pyOrStr listing.description "No description"
    originalPrice := filledPrice listing.priceCents
    currentPrice := filledPrice listing.priceCents }

/-- The exact rational value of a price stored in cents. -/
def priceRat (cents : ℤ) : ℚ := (cents : ℚ) / 100

/-- Number of account rows stored for a `(user, marketplace)` pair. -/
def accountCountFor (db : Db) (uid : Nat) (mkt : String) : Nat :=
  (db.accounts.filter (isAccountOf uid mkt)).length

/-- The adjacency relation left by collapsing dash runs: no two neighbouring
dashes. -/
def dashFree (a b : Char) : Prop := ¬(a = '-' ∧ b = '-')

/-- The character pipeline of `_sanitize_sku` before the empty-default:
replace, collapse, strip `'-'`, strip `'_'`.  `sanitizeSku raw` is
definitionally `if (sanitizeStages raw.data).isEmpty then "SKU" else
String.mk (sanitizeStages raw.data)`. -/
def sanitizeStages (l : List Char) : List Char :=
  stripChars ['_'] (stripChars ['-'] (collapseDashes
    (l.map (fun c => if skuAllowed c then c else '-'))))

/-! ### Concrete fixtures used by witnesses and counterexamples -/

/-- A listing whose sku is still NULL (its first publish synthesizes one). -/
def fixListing : ListingRow :=
  ⟨1, 1, some "Vintage Lamp", some "A nice lamp", some 4250, some "Used - Good", none⟩

def fixDb : Db := ⟨[fixListing], [], [], [], 10⟩

/-- Policy resolution came back empty; the cached token was still fresh
(no account write); every remote call would succeed. -/
def fixOracleNoPol : EbayOracle := ⟨none, none, 200, 200, some "O1", none, 200, some "L1"⟩

/-- Policy resolution came back empty after a stale token was refreshed
(the account row gets the new token committed before the abort). -/
def fixOracleNoPolRefresh : EbayOracle :=
  ⟨some ("refreshed-token", 9000), none, 200, 200, some "O1", none, 200, some "L1"⟩

/-- Fully successful remote leg, cached token still fresh. -/
def fixOracleOk : EbayOracle :=
  ⟨none, some ⟨"FULPOL", "PAYPOL", "RETPOL"⟩, 200, 200, some "O1", none, 200, some "L1"⟩

/-- `fixDb` plus a connected eBay account whose stale token the pipeline's
first remote call would refresh. -/
def fixDbAcct : Db :=
  ⟨[fixListing], [], [], [⟨1, 1, "ebay", none, some "stale-token", some "rt", some 0⟩], 10⟩

def fixAccount (expiresAt : Option ℤ) (refreshTok : Option String) : AccountRow :=
  ⟨1, 7, "ebay", none, some "cached-token", refreshTok, expiresAt⟩

def fixTokenDb (expiresAt : Option ℤ) (refreshTok : Option String) : Db :=
  ⟨[], [], [], [fixAccount expiresAt refreshTok], 3⟩

def fixRespOk : TokenResponse := ⟨200, "", some "fresh-token", some 7200⟩

def fixRespBad : TokenResponse := ⟨400, "invalid_grant", none, none⟩

def fixSyncListing : ListingRow := ⟨2, 7, some "T", none, some 100, none, some "SK1"⟩

def fixSyncDb : Db := ⟨[fixSyncListing], [], [], [], 5⟩

/-- A listing that has no stored images. -/
def fixPoshDb : Db := ⟨[fixListing], [], [], [], 10⟩

def fixAcctRow (mkt : String) : AccountRow := ⟨1, 7, mkt, some "user", some "tok", none, none⟩

def fixAcctDb : Db := ⟨[], [], [], [fixAcctRow "poshmark", fixAcctRow "ebay"], 2⟩

/-- A link-row mutation that never touches the identifying pair (all the
mutations the router performs). -/
def KeepsPair (f : LinkRow → LinkRow) : Prop :=
  ∀ r, (f r).listingId = r.listingId ∧ (f r).marketplace = r.marketplace

/-! ### Sequences of link-writing invocations -/

/-- One invocation of a link-writing endpoint, with the remote responses it
observes. -/
inductive MarketCall
  | publishEbay (sandbox : Bool) (uid lid : Nat) (o : EbayOracle)
  | prepareEbay (uid lid : Nat) (o : EbayOracle)
  | publishPosh (uid lid : Nat) (remote : PoshRemote)

def runMarketCall (c : MarketCall) (db : Db) : Db :=
  match c with
  | .publishEbay sb uid lid o => (publishToEbay sb uid lid o db).2
  | .prepareEbay uid lid o => (prepareEbayOffer uid lid o db).2
  | .publishPosh uid lid r => (publishToPoshmark uid lid r db).2.1

def runMarketCalls (cs : List MarketCall) (db : Db) : Db :=
  cs.foldl (fun d c => runMarketCall c d) db


/-! ### Lemmas on first-match replacement and removal -/

theorem length_filter_replaceFirst (p : α → Bool) (f : α → α) (q : α → Bool) (l : List α)
    (hq : ∀ a, q (f a) = q a) :
    ((replaceFirst p f l).filter q).length = (l.filter q).length := by
  induction l with
  | nil => rfl
  | cons a as ih =>
    by_cases hp : p a = true
    · simp only [replaceFirst, hp, if_pos]
      rcases hqa : q a with _ | _
      · rw [List.filter_cons_of_neg (by simp [hq a, hqa]),
          List.filter_cons_of_neg (by simp [hqa])]
      · rw [List.filter_cons_of_pos (by rw [hq a, hqa]),
          List.filter_cons_of_pos (by rw [hqa])]
        simp
    · have hp' : p a = false := Bool.not_eq_true _ ▸ hp
      simp only [replaceFirst, hp', Bool.false_eq_true, if_false]
      rcases hqa : q a with _ | _
      · rw [List.filter_cons_of_neg (by simp [hqa]), List.filter_cons_of_neg (by simp [hqa]), ih]
      · rw [List.filter_cons_of_pos (by rw [hqa]), List.filter_cons_of_pos (by rw [hqa])]
        simp [ih]

theorem filter_replaceFirst_of_disjoint (p : α → Bool) (f : α → α) (q : α → Bool) (l : List α)
    (hq : ∀ a, q (f a) = q a) (hpq : ∀ a, p a = true → q a = false) :
    (replaceFirst p f l).filter q = l.filter q := by
  induction l with
  | nil => rfl
  | cons a as ih =>
    by_cases hp : p a = true
    · simp only [replaceFirst, hp, if_pos]
      rw [List.filter_cons_of_neg (by simp [hq a, hpq a hp]),
        List.filter_cons_of_neg (by simp [hpq a hp])]
    · have hp' : p a = false := Bool.not_eq_true _ ▸ hp
      simp only [replaceFirst, hp', Bool.false_eq_true, if_false]
      rcases hqa : q a with _ | _
      · rw [List.filter_cons_of_neg (by simp [hqa]), List.filter_cons_of_neg (by simp [hqa]), ih]
      · rw [List.filter_cons_of_pos (by rw [hqa]), List.filter_cons_of_pos (by rw [hqa]), ih]

theorem find?_replaceFirst (p : α → Bool) (f : α → α) (l : List α)
    (hp : ∀ a, p a = true → p (f a) = true) :
    List.find? p (replaceFirst p f l) = (List.find? p l).map f := by
  induction l with
  | nil => rfl
  | cons a as ih =>
    by_cases hpa : p a = true
    · simp only [replaceFirst, hpa, if_pos]
      rw [List.find?_cons_of_pos _ (hp a hpa), List.find?_cons_of_pos _ hpa]
      rfl
    · have hpa' : p a = false := Bool.not_eq_true _ ▸ hpa
      simp only [replaceFirst, hpa', Bool.false_eq_true, if_false]
      rw [List.find?_cons_of_neg _ (by rw [hpa']; exact Bool.false_ne_true),
        List.find?_cons_of_neg _ (by rw [hpa']; exact Bool.false_ne_true), ih]

theorem replaceFirst_eq_of_fix (p : α → Bool) (f : α → α) (l : List α) (a : α)
    (h : List.find? p l = some a) (hfix : f a = a) : replaceFirst p f l = l := by
  induction l with
  | nil => simp at h
  | cons b bs ih =>
    by_cases hpb : p b = true
    · rw [List.find?_cons_of_pos _ hpb] at h
      injection h with h
      subst h
      simp [replaceFirst, hpb, hfix]
    · have hpb' : p b = false := Bool.not_eq_true _ ▸ hpb
      rw [List.find?_cons_of_neg _ (by rw [hpb']; exact Bool.false_ne_true)] at h
      simp [replaceFirst, hpb', ih h]

theorem find?_eq_none_iff_filter (p : α → Bool) (l : List α) :
    List.find? p l = none ↔ l.filter p = [] := by
  rw [List.find?_eq_none, List.filter_eq_nil_iff]

theorem filter_removeFirst_self (p : α → Bool) (l : List α)
    (h : (l.filter p).length ≤ 1) : (removeFirst p l).filter p = [] := by
  induction l with
  | nil => rfl
  | cons a as ih =>
    by_cases hp : p a = true
    · simp only [removeFirst, hp, if_pos]
      rw [List.filter_cons_of_pos (by rw [hp])] at h
      simp only [List.length_cons] at h
      have : (as.filter p).length = 0 := by omega
      exact List.length_eq_zero.mp this
    · have hp' : p a = false := Bool.not_eq_true _ ▸ hp
      simp only [removeFirst, hp', Bool.false_eq_true, if_false]
      rw [List.filter_cons_of_neg (by simp [hp'])] at h
      rw [List.filter_cons_of_neg (by simp [hp'])]
      exact ih h

/-! ### Lemmas on the link upsert -/

theorem isLinkFor_keepsPair {f : LinkRow → LinkRow} (hf : KeepsPair f)
    (lid : Nat) (mkt : String) (r : LinkRow) :
    isLinkFor lid mkt (f r) = isLinkFor lid mkt r := by
  unfold isLinkFor
  rw [(hf r).1, (hf r).2]

theorem isLinkFor_newLink (lid : Nat) (mkt : String) (n : Nat) :
    isLinkFor lid mkt (newLink n lid mkt) = true := by
  simp [isLinkFor, newLink]

theorem linkCountFor_zero_iff_find (db : Db) (lid : Nat) (mkt : String) :
    linkCountFor db lid mkt = 0 ↔ findLink db lid mkt = none := by
  rw [linkCountFor, findLink, List.length_eq_zero, find?_eq_none_iff_filter]

theorem linkCountFor_upsert_self (db : Db) (lid : Nat) (mkt : String)
    {f : LinkRow → LinkRow} (hf : KeepsPair f) :
    linkCountFor (upsertLink db lid mkt f) lid mkt =
      if linkCountFor db lid mkt = 0 then 1 else linkCountFor db lid mkt := by
  unfold upsertLink
  cases hfind : findLink db lid mkt with
  | none =>
    have hz : linkCountFor db lid mkt = 0 := (linkCountFor_zero_iff_find db lid mkt).mpr hfind
    simp only [hz, if_pos]
    unfold linkCountFor at hz ⊢
    rw [List.filter_append, List.length_append, hz]
    rw [List.filter_cons_of_pos (by rw [isLinkFor_keepsPair hf, isLinkFor_newLink])]
    rfl
  | some r =>
    have hnz : linkCountFor db lid mkt ≠ 0 := by
      intro hz
      rw [linkCountFor_zero_iff_find db lid mkt] at hz
      simp [hz] at hfind
    simp only [hnz, if_neg, if_false]
    unfold linkCountFor
    exact length_filter_replaceFirst _ f _ db.links (isLinkFor_keepsPair hf lid mkt)

theorem linkCountFor_upsert_other (db : Db) (lid : Nat) (mkt : String)
    {f : LinkRow → LinkRow} (hf : KeepsPair f) (lid' : Nat) (mkt' : String)
    (hne : ¬(lid' = lid ∧ mkt' = mkt)) :
    linkCountFor (upsertLink db lid mkt f) lid' mkt' = linkCountFor db lid' mkt' := by
  have hnew : ¬isLinkFor lid' mkt' (newLink db.nextId lid mkt) = true := by
    simp only [isLinkFor, newLink, Bool.and_eq_true, beq_iff_eq]
    intro hc
    exact hne ⟨hc.1.symm, hc.2.symm⟩
  unfold upsertLink
  cases hfind : findLink db lid mkt with
  | none =>
    unfold linkCountFor
    rw [List.filter_append, List.length_append]
    rw [List.filter_cons_of_neg (by rw [isLinkFor_keepsPair hf]; exact hnew)]
    rfl
  | some r =>
    unfold linkCountFor
    rw [filter_replaceFirst_of_disjoint _ f _ db.links (isLinkFor_keepsPair hf lid' mkt')]
    intro a ha
    simp only [isLinkFor, Bool.and_eq_true, beq_iff_eq] at ha
    apply Bool.eq_false_iff.mpr
    simp only [ne_eq, isLinkFor, Bool.and_eq_true, beq_iff_eq, ha.1, ha.2]
    intro hc
    exact hne ⟨hc.1.symm, hc.2.symm⟩

theorem linkCountFor_upsert_le (db : Db) (lid : Nat) (mkt : String)
    {f : LinkRow → LinkRow} (hf : KeepsPair f)
    (h : ∀ l m, linkCountFor db l m ≤ 1) (lid' : Nat) (mkt' : String) :
    linkCountFor (upsertLink db lid mkt f) lid' mkt' ≤ 1 := by
  by_cases hp : lid' = lid ∧ mkt' = mkt
  · rcases hp with ⟨rfl, rfl⟩
    rw [linkCountFor_upsert_self db lid' mkt' hf]
    split
    · exact le_refl 1
    · exact h lid' mkt'
  · rw [linkCountFor_upsert_other db lid mkt hf lid' mkt' hp]
    exact h lid' mkt'

theorem findLink_upsert_none (db : Db) (lid : Nat) (mkt : String)
    {f : LinkRow → LinkRow} (hf : KeepsPair f) (h : findLink db lid mkt = none) :
    findLink (upsertLink db lid mkt f) lid mkt = some (f (newLink db.nextId lid mkt)) := by
  unfold upsertLink
  rw [h]
  unfold findLink at h ⊢
  simp only
  rw [List.find?_append, h]
  simp only [Option.none_or]
  rw [List.find?_cons_of_pos _ (by rw [isLinkFor_keepsPair hf, isLinkFor_newLink])]

theorem findLink_upsert_some (db : Db) (lid : Nat) (mkt : String)
    {f : LinkRow → LinkRow} (hf : KeepsPair f) (r : LinkRow)
    (h : findLink db lid mkt = some r) :
    findLink (upsertLink db lid mkt f) lid mkt = some (f r) := by
  unfold upsertLink
  rw [h]
  unfold findLink at h ⊢
  simp only
  rw [find?_replaceFirst _ f _ (fun a ha => by rw [isLinkFor_keepsPair hf]; exact ha), h]
  rfl

/-! ### Structural lemmas about the pipelines -/

theorem keepsPair_publishLinkMut (sb : Bool) (i : Option String) (sku : String)
    (oid : Option String) : KeepsPair (publishLinkMut sb i sku oid) :=
  fun _ => ⟨rfl, rfl⟩

theorem keepsPair_prepareLinkMut (sku : String) (oid : Option String) :
    KeepsPair (prepareLinkMut sku oid) :=
  fun _ => ⟨rfl, rfl⟩

theorem keepsPair_syncMut : KeepsPair syncMut := by
  intro r
  unfold syncMut
  split <;> exact ⟨rfl, rfl⟩

theorem skuStep_links (uid lid : Nat) (listing : ListingRow) (db : Db) :
    (skuStep uid lid listing db).links = db.links := by
  unfold skuStep
  split <;> rfl

theorem skuStep_accounts (uid lid : Nat) (listing : ListingRow) (db : Db) :
    (skuStep uid lid listing db).accounts = db.accounts := by
  unfold skuStep
  split <;> rfl

theorem skuStep_images (uid lid : Nat) (listing : ListingRow) (db : Db) :
    (skuStep uid lid listing db).images = db.images := by
  unfold skuStep
  split <;> rfl

theorem skuStep_nextId (uid lid : Nat) (listing : ListingRow) (db : Db) :
    (skuStep uid lid listing db).nextId = db.nextId := by
  unfold skuStep
  split <;> rfl

theorem linkCountFor_skuStep (uid lid : Nat) (listing : ListingRow) (db : Db)
    (l : Nat) (m : String) :
    linkCountFor (skuStep uid lid listing db) l m = linkCountFor db l m := by
  unfold linkCountFor
  rw [skuStep_links]

theorem applyTokenRefresh_links (uid : Nat) (o : EbayOracle) (db : Db) :
    (applyTokenRefresh uid o db).links = db.links := by
  unfold applyTokenRefresh
  cases h : o.tokenRefreshed with
  | none => rfl
  | some p =>
    obtain ⟨tok, exp⟩ := p
    rfl

theorem applyTokenRefresh_images (uid : Nat) (o : EbayOracle) (db : Db) :
    (applyTokenRefresh uid o db).images = db.images := by
  unfold applyTokenRefresh
  cases h : o.tokenRefreshed with
  | none => rfl
  | some p =>
    obtain ⟨tok, exp⟩ := p
    rfl

theorem applyTokenRefresh_nextId (uid : Nat) (o : EbayOracle) (db : Db) :
    (applyTokenRefresh uid o db).nextId = db.nextId := by
  unfold applyTokenRefresh
  cases h : o.tokenRefreshed with
  | none => rfl
  | some p =>
    obtain ⟨tok, exp⟩ := p
    rfl

theorem applyTokenRefresh_none (uid : Nat) (o : EbayOracle) (db : Db)
    (h : o.tokenRefreshed = none) : applyTokenRefresh uid o db = db := by
  unfold applyTokenRefresh
  rw [h]

/-- The token-refresh commit acts on the accounts table alone, so two states
agreeing there keep agreeing. -/
theorem applyTokenRefresh_accounts_congr (uid : Nat) (o : EbayOracle) (db db' : Db)
    (h : db.accounts = db'.accounts) :
    (applyTokenRefresh uid o db).accounts = (applyTokenRefresh uid o db').accounts := by
  unfold applyTokenRefresh
  cases hh : o.tokenRefreshed with
  | none => exact h
  | some p =>
    obtain ⟨tok, exp⟩ := p
    show replaceFirst _ _ db.accounts = replaceFirst _ _ db'.accounts
    rw [h]

theorem linkCountFor_applyTokenRefresh (uid : Nat) (o : EbayOracle) (db : Db)
    (l : Nat) (m : String) :
    linkCountFor (applyTokenRefresh uid o db) l m = linkCountFor db l m := by
  unfold linkCountFor
  rw [applyTokenRefresh_links]

theorem findLink_applyTokenRefresh (uid : Nat) (o : EbayOracle) (db : Db)
    (l : Nat) (m : String) :
    findLink (applyTokenRefresh uid o db) l m = findLink db l m := by
  unfold findLink
  rw [applyTokenRefresh_links]

theorem findLink_skuStep (uid lid : Nat) (listing : ListingRow) (db : Db)
    (l : Nat) (m : String) :
    findLink (skuStep uid lid listing db) l m = findLink db l m := by
  unfold findLink
  rw [skuStep_links]

/-- The database effect of one `publish_to_ebay` call: unchanged (404), the
sku write plus the possible token-refresh commit (aborted pipeline), or
those followed by one link upsert (successful publish). -/
theorem publishToEbay_db_cases (sb : Bool) (uid lid : Nat) (o : EbayOracle) (db : Db) :
    (publishToEbay sb uid lid o db).2 = db ∨
    (∃ listing, findOwnedListing db lid uid = some listing ∧
      ((publishToEbay sb uid lid o db).2 =
         applyTokenRefresh uid o (skuStep uid lid listing db) ∨
       (publishToEbay sb uid lid o db).2 =
         upsertLink (applyTokenRefresh uid o (skuStep uid lid listing db)) lid "ebay"
           (publishLinkMut sb o.publishListingId (computeSku listing uid) (offerIdOf o)))) := by
  cases hf : findOwnedListing db lid uid with
  | none => left; simp [publishToEbay, hf]
  | some listing =>
    right
    refine ⟨listing, rfl, ?_⟩
    simp only [publishToEbay, hf]
    cases hpol : o.policies with
    | none => left; rfl
    | some pol =>
      simp only
      split
      · split
        · split
          · right; rfl
          · left; rfl
        · left; rfl
      · left; rfl

/-- The database effect of one `create_inventory_and_offer` call. -/
theorem prepareEbayOffer_db_cases (uid lid : Nat) (o : EbayOracle) (db : Db) :
    (prepareEbayOffer uid lid o db).2 = db ∨
    (∃ listing, findOwnedListing db lid uid = some listing ∧
      ((prepareEbayOffer uid lid o db).2 =
         applyTokenRefresh uid o (skuStep uid lid listing db) ∨
       (prepareEbayOffer uid lid o db).2 =
         upsertLink (applyTokenRefresh uid o (skuStep uid lid listing db)) lid "ebay"
           (prepareLinkMut (computeSku listing uid) (offerIdOf o)))) := by
  cases hf : findOwnedListing db lid uid with
  | none => left; simp [prepareEbayOffer, hf]
  | some listing =>
    right
    refine ⟨listing, rfl, ?_⟩
    simp only [prepareEbayOffer, hf]
    cases hpol : o.policies with
    | none => left; rfl
    | some pol =>
      simp only
      split
      · split
        · right; rfl
        · left; rfl
      · left; rfl

/-- The database effect of one `publish_to_poshmark` call: unchanged, or one
link upsert (successful automation run). -/
theorem publishToPoshmark_db_cases (uid lid : Nat) (remote : PoshRemote) (db : Db) :
    (publishToPoshmark uid lid remote db).2.1 = db ∨
    ∃ f, KeepsPair f ∧ (publishToPoshmark uid lid remote db).2.1 = upsertLink db lid "poshmark" f := by
  cases hf : findOwnedListing db lid uid with
  | none => left; simp [publishToPoshmark, hf]
  | some listing =>
    simp only [publishToPoshmark, hf]
    split
    · left; rfl
    · cases remote with
      | success st eid url =>
        right
        refine ⟨fun r => { r with status := some st, externalItemId := eid, externalUrl := url },
          fun _ => ⟨rfl, rfl⟩, rfl⟩
      | authFailure => left; rfl
      | publishFailure => left; rfl
      | otherFailure => left; rfl

/-- A successful publish ends in exactly the link upsert (used for the
two-publishes property). -/
theorem publishToEbay_published_shape (sb : Bool) (uid lid : Nat) (o : EbayOracle) (db : Db)
    (i : Option String) (h : (publishToEbay sb uid lid o db).1 = .published i) :
    ∃ listing, findOwnedListing db lid uid = some listing ∧ i = o.publishListingId ∧
      (publishToEbay sb uid lid o db).2 =
        upsertLink (applyTokenRefresh uid o (skuStep uid lid listing db)) lid "ebay"
          (publishLinkMut sb o.publishListingId (computeSku listing uid) (offerIdOf o)) := by
  cases hf : findOwnedListing db lid uid with
  | none => simp [publishToEbay, hf] at h
  | some listing =>
    refine ⟨listing, rfl, ?_⟩
    simp only [publishToEbay, hf] at h ⊢
    cases hpol : o.policies with
    | none => rw [hpol] at h; simp at h
    | some pol =>
      rw [hpol] at h
      simp only at h ⊢
      by_cases h1 : o.invPutStatus = 200 ∨ o.invPutStatus = 201 ∨ o.invPutStatus = 204
      · by_cases h2 : (o.offerCreateStatus = 200 ∨ o.offerCreateStatus = 201) ∨
            o.offerExistsId.isSome = true
        · by_cases h3 : o.publishStatus = 200 ∨ o.publishStatus = 201
          · simp only [h1, h2, h3, if_true, if_pos] at h ⊢
            injection h with h4
            exact ⟨h4.symm, trivial⟩
          · simp [h1, h2, h3] at h
        · simp [h1, h2] at h
      · simp [h1] at h

theorem linkCountFor_runMarketCall_le (c : MarketCall) (db : Db)
    (h : ∀ l m, linkCountFor db l m ≤ 1) (l : Nat) (m : String) :
    linkCountFor (runMarketCall c db) l m ≤ 1 := by
  have hsku : ∀ uid lid listing (o : EbayOracle), ∀ l' m',
      linkCountFor (applyTokenRefresh uid o (skuStep uid lid listing db)) l' m' ≤ 1 := by
    intro uid lid listing o l' m'
    rw [linkCountFor_applyTokenRefresh, linkCountFor_skuStep]
    exact h l' m'
  cases c with
  | publishEbay sb uid lid o =>
    rcases publishToEbay_db_cases sb uid lid o db with hc | ⟨listing, hf, hc | hc⟩
    · simp only [runMarketCall]; rw [hc]; exact h l m
    · simp only [runMarketCall]; rw [hc]; exact hsku uid lid listing o l m
    · simp only [runMarketCall]
      rw [hc]
      exact linkCountFor_upsert_le _ lid "ebay" (keepsPair_publishLinkMut _ _ _ _)
        (hsku uid lid listing o) l m
  | prepareEbay uid lid o =>
    rcases prepareEbayOffer_db_cases uid lid o db with hc | ⟨listing, hf, hc | hc⟩
    · simp only [runMarketCall]; rw [hc]; exact h l m
    · simp only [runMarketCall]; rw [hc]; exact hsku uid lid listing o l m
    · simp only [runMarketCall]
      rw [hc]
      exact linkCountFor_upsert_le _ lid "ebay" (keepsPair_prepareLinkMut _ _)
        (hsku uid lid listing o) l m
  | publishPosh uid lid r =>
    rcases publishToPoshmark_db_cases uid lid r db with hc | ⟨f, hkp, hc⟩
    · simp only [runMarketCall]; rw [hc]; exact h l m
    · simp only [runMarketCall]
      rw [hc]
      exact linkCountFor_upsert_le _ lid "poshmark" hkp h l m

theorem linkCountFor_runMarketCalls_le (cs : List MarketCall) (db : Db)
    (h : ∀ l m, linkCountFor db l m ≤ 1) :
    ∀ l m, linkCountFor (runMarketCalls cs db) l m ≤ 1 := by
  induction cs generalizing db with
  | nil => exact h
  | cons c cs ih => exact ih _ (linkCountFor_runMarketCall_le c db h)

/-! ### Session fold lemmas (for the sync batch) -/

theorem foldl_mutate_committed {β : Type} (g : Db → β → Db) (items : List β) (s : Sess) :
    (items.foldl (fun t it => t.mutate (fun d => g d it)) s).committed = s.committed := by
  induction items generalizing s with
  | nil => rfl
  | cons it items ih => exact ih _

theorem foldl_mutate_commits {β : Type} (g : Db → β → Db) (items : List β) (s : Sess) :
    (items.foldl (fun t it => t.mutate (fun d => g d it)) s).commits = s.commits := by
  induction items generalizing s with
  | nil => rfl
  | cons it items ih => exact ih _

theorem foldl_mutate_working {β : Type} (g : Db → β → Db) (items : List β) (s : Sess) :
    (items.foldl (fun t it => t.mutate (fun d => g d it)) s).working =
      items.foldl g s.working := by
  induction items generalizing s with
  | nil => rfl
  | cons it items ih => exact ih _

/-! ### Lemmas on the account table -/

theorem accountCountFor_zero_iff_find (db : Db) (uid : Nat) (mkt : String) :
    accountCountFor db uid mkt = 0 ↔ findAccount db uid mkt = none := by
  rw [accountCountFor, List.length_eq_zero, ← find?_eq_none_iff_filter]
  exact Iff.rfl

theorem disconnectAccount_of_none (db : Db) (uid : Nat) (mkt : String)
    (h : findAccount db uid mkt = none) : disconnectAccount db uid mkt = db := by
  unfold disconnectAccount
  rw [h]

theorem accountCountFor_disconnect (db : Db) (uid : Nat) (mkt : String)
    (h : accountCountFor db uid mkt ≤ 1) :
    accountCountFor (disconnectAccount db uid mkt) uid mkt = 0 := by
  unfold disconnectAccount
  cases hfind : findAccount db uid mkt with
  | none => exact (accountCountFor_zero_iff_find db uid mkt).mpr hfind
  | some a =>
    unfold accountCountFor at h ⊢
    simp only
    rw [List.length_eq_zero]
    exact filter_removeFirst_self _ _ h

/-! ### Claim theorems -/

/-- Claim C10: both disconnect endpoints are idempotent at the public
interface.  For every user, when the database holds at most one account row
per `(user, marketplace)` pair (the data model's invariant), `disconnect`
returns its fixed success message, afterwards no account row for the pair
remains, and a second call returns the very same message and state — the
operation is total, so a missing account never raises. -/
theorem marketplace_disconnect_idempotent (db : Db) (uid : Nat)
    (hp : accountCountFor db uid "poshmark" ≤ 1)
    (he : accountCountFor db uid "ebay" ≤ 1) :
    ((poshmarkDisconnect db uid).1 = "Poshmark account disconnected" ∧
     accountCountFor (poshmarkDisconnect db uid).2 uid "poshmark" = 0 ∧
     poshmarkDisconnect (poshmarkDisconnect db uid).2 uid =
       ("Poshmark account disconnected", (poshmarkDisconnect db uid).2)) ∧
    ((ebayDisconnect db uid).1 = "Disconnected" ∧
     accountCountFor (ebayDisconnect db uid).2 uid "ebay" = 0 ∧
     ebayDisconnect (ebayDisconnect db uid).2 uid =
       ("Disconnected", (ebayDisconnect db uid).2)) := by
  have hp0 := accountCountFor_disconnect db uid "poshmark" hp
  have he0 := accountCountFor_disconnect db uid "ebay" he
  refine ⟨⟨rfl, hp0, ?_⟩, ⟨rfl, he0, ?_⟩⟩
  · show (_, disconnectAccount (disconnectAccount db uid "poshmark") uid "poshmark") = _
    rw [disconnectAccount_of_none _ _ _ ((accountCountFor_zero_iff_find _ _ _).mp hp0)]
    rfl
  · show (_, disconnectAccount (disconnectAccount db uid "ebay") uid "ebay") = _
    rw [disconnectAccount_of_none _ _ _ ((accountCountFor_zero_iff_find _ _ _).mp he0)]
    rfl

/-- Witness for C10 at a database holding one Poshmark and one eBay account. -/
theorem marketplace_disconnect_idempotent_witness :
    accountCountFor fixAcctDb 7 "poshmark" ≤ 1 ∧
    accountCountFor (poshmarkDisconnect fixAcctDb 7).2 7 "poshmark" = 0 ∧
    accountCountFor (ebayDisconnect fixAcctDb 7).2 7 "ebay" = 0 :=
  ⟨by decide,
   (marketplace_disconnect_idempotent fixAcctDb 7 (by decide) (by decide)).1.2.1,
   (marketplace_disconnect_idempotent fixAcctDb 7 (by decide) (by decide)).2.2.1⟩

/-- Claim C8: a publish request to the browser-based marketplace for a
listing with zero stored images fails with the precondition error before any
automation session is created (session count 0) and leaves the database —
in particular every marketplace-link row — untouched. -/
theorem poshmark_publish_requires_images (uid lid : Nat) (remote : PoshRemote) (db : Db)
    (listing : ListingRow) (hfound : findOwnedListing db lid uid = some listing)
    (hempty : imagesFor db lid = []) :
    publishToPoshmark uid lid remote db = (.noImages, db, 0) := by
  simp [publishToPoshmark, hfound, hempty]

/-- Witness for C8: a stored listing with no image rows. -/
theorem poshmark_publish_requires_images_witness :
    findOwnedListing fixPoshDb 1 1 = some fixListing ∧
    imagesFor fixPoshDb 1 = [] ∧
    publishToPoshmark 1 1 PoshRemote.authFailure fixPoshDb = (.noImages, fixPoshDb, 0) :=
  ⟨by decide, by decide,
   poshmark_publish_requires_images 1 1 PoshRemote.authFailure fixPoshDb fixListing
     (by decide) (by decide)⟩

/-- Claim C4: the condition mapping lower-cases the free-text condition and
matches substrings in priority order new, like, good/used, parts, defaulting
to NEW (also for an absent or empty condition), with the four concrete
examples of the spec. -/
theorem ebay_condition_mapping (s : String) :
    mapEbayCondition none = "NEW" ∧
    mapEbayCondition (some "") = "NEW" ∧
    (s ≠ "" → strContains (asciiLower s) "new" = true →
      mapEbayCondition (some s) = "NEW") ∧
    (s ≠ "" → strContains (asciiLower s) "new" = false →
      strContains (asciiLower s) "like" = true →
      mapEbayCondition (some s) = "LIKE_NEW") ∧
    (s ≠ "" → strContains (asciiLower s) "new" = false →
      strContains (asciiLower s) "like" = false →
      (strContains (asciiLower s) "good" || strContains (asciiLower s) "used") = true →
      mapEbayCondition (some s) = "USED_GOOD") ∧
    (s ≠ "" → strContains (asciiLower s) "new" = false →
      strContains (asciiLower s) "like" = false →
      (strContains (asciiLower s) "good" || strContains (asciiLower s) "used") = false →
      strContains (asciiLower s) "parts" = true →
      mapEbayCondition (some s) = "FOR_PARTS_OR_NOT_WORKING") ∧
    (s ≠ "" → strContains (asciiLower s) "new" = false →
      strContains (asciiLower s) "like" = false →
      (strContains (asciiLower s) "good" || strContains (asciiLower s) "used") = false →
      strContains (asciiLower s) "parts" = false →
      mapEbayCondition (some s) = "NEW") ∧
    mapEbayCondition (some "Used - Good") = "USED_GOOD" ∧
    mapEbayCondition (some "Brand New") = "NEW" ∧
    mapEbayCondition (some "For parts") = "FOR_PARTS_OR_NOT_WORKING" ∧
    mapEbayCondition (some "???") = "NEW" := by
  refine ⟨rfl, rfl, ?_, ?_, ?_, ?_, ?_, by decide, by decide, by decide, by decide⟩
  · intro h1 h2
    simp [mapEbayCondition, h1, h2]
  · intro h1 h2 h3
    simp [mapEbayCondition, h1, h2, h3]
  · intro h1 h2 h3 h4
    simp [mapEbayCondition, h1, h2, h3, h4]
  · intro h1 h2 h3 h4 h5
    simp only [Bool.or_eq_false_iff] at h4
    simp [mapEbayCondition, h1, h2, h3, h4.1, h4.2, h5]
  · intro h1 h2 h3 h4 h5
    simp only [Bool.or_eq_false_iff] at h4
    simp [mapEbayCondition, h1, h2, h3, h4.1, h4.2, h5]

/-- Witness for C4 discharging the USED_GOOD priority branch. -/
theorem ebay_condition_mapping_witness :
    mapEbayCondition (some "Used - Good") = "USED_GOOD" :=
  (ebay_condition_mapping "Used - Good").2.2.2.2.1 (by decide) (by decide) (by decide) (by decide)

theorem tdiv_100_eq_floor (c : ℤ) (h : 0 ≤ c) : c.tdiv 100 = ⌊priceRat c⌋ := by
  unfold priceRat
  rw [Int.tdiv_eq_ediv h (by norm_num)]
  rw [show ((100 : ℚ)) = ((100 : ℕ) : ℚ) by norm_num]
  rw [Rat.floor_intCast_div_natCast c 100]
  rfl

/-- Claim C9 (amended): during the browser-pipeline field fill both price
inputs receive the same string, namely `str(int(price))` — truncation toward
zero, which for every non-negative price equals the floor of the price (not
the nearest integer). -/
theorem poshmark_price_fill (listing : ListingRow) (c : ℤ) :
    (fillPoshmarkFields listing).originalPrice = (fillPoshmarkFields listing).currentPrice ∧
    (fillPoshmarkFields listing).originalPrice = filledPrice listing.priceCents ∧
    (0 ≤ c → filledPrice (some c) = toString ⌊priceRat c⌋) := by
  refine ⟨rfl, rfl, ?_⟩
  intro h
  show toString (((some c).getD 0).tdiv 100) = toString ⌊priceRat c⌋
  rw [Option.getD_some, tdiv_100_eq_floor c h]

/-- Counterexample for C9 as stated: at price 2.75 both fields are filled
with "2", yet the integer nearest to 2.75 is 3. -/
theorem poshmark_price_fill_cx :
    filledPrice (some 275) = "2" ∧
    |priceRat 275 - 3| < |priceRat 275 - 2| ∧
    toString (3 : ℤ) ≠ "2" := by
  refine ⟨by decide, ?_, by decide⟩
  unfold priceRat
  rw [abs_of_nonpos (by norm_num), abs_of_nonneg (by norm_num)]
  norm_num

/-- Witness for C9 at price 2.75 (275 cents). -/
theorem poshmark_price_fill_witness :
    (0 : ℤ) ≤ 275 ∧ filledPrice (some 275) = toString ⌊priceRat 275⌋ :=
  ⟨by decide, (poshmark_price_fill fixListing 275).2.2 (by decide)⟩

/-- Claim C5 (amended): the image selection keeps exactly the entries that
start with "http" (which includes every absolute http(s) URL) and contain
neither "127.0.0.1" nor "localhost", preserves their relative order, and
caps the payload at the first 12. -/
theorem image_url_selection (urls : List String) (u : String) :
    (selectImageUrls urls).Sublist urls ∧
    (selectImageUrls urls).length ≤ 12 ∧
    ((urls.filter keepImageUrl).length ≤ 12 →
      selectImageUrls urls = urls.filter keepImageUrl) ∧
    (u ∈ selectImageUrls urls → keepImageUrl u = true) ∧
    (keepImageUrl u = true ↔
      (strStartsWith u "http" = true ∧ strContains u "127.0.0.1" = false ∧
        strContains u "localhost" = false)) ∧
    (isAbsoluteHttpUrl u = true → strStartsWith u "http" = true) := by
  refine ⟨?_, ?_, ?_, ?_, ?_, ?_⟩
  · exact (List.take_sublist _ _).trans (List.filter_sublist _)
  · rw [selectImageUrls, List.length_take]
    exact inf_le_left
  · intro h
    exact List.take_of_length_le h
  · intro hm
    exact List.of_mem_filter ((List.take_sublist _ _).mem hm)
  · unfold keepImageUrl
    constructor
    · intro h
      simp only [Bool.and_eq_true, Bool.not_eq_true'] at h
      exact ⟨h.1.1, h.1.2, h.2⟩
    · rintro ⟨h1, h2, h3⟩
      simp [h1, h2, h3]
  · intro h
    unfold isAbsoluteHttpUrl at h
    simp only [Bool.or_eq_true] at h
    rcases h with h | h
    · unfold strStartsWith at h ⊢
      rw [List.isPrefixOf_iff_prefix] at h ⊢
      exact (show ("http".data : List Char) <+: "http://".data from ⟨"://".data, by decide⟩).trans h
    · unfold strStartsWith at h ⊢
      rw [List.isPrefixOf_iff_prefix] at h ⊢
      exact (show ("http".data : List Char) <+: "https://".data from ⟨"s://".data, by decide⟩).trans h

/-- Counterexample for C5 as stated: "httpfoo" is not an absolute http(s)
URL, yet the pipeline keeps it. -/
theorem image_url_selection_cx :
    selectImageUrls ["httpfoo"] = ["httpfoo"] ∧ isAbsoluteHttpUrl "httpfoo" = false := by
  decide

/-- Witness for C5 on a two-element URL list with a localhost entry. -/
theorem image_url_selection_witness :
    selectImageUrls ["https://cdn.example.com/a.jpg", "http://localhost/b.jpg"] =
      ["https://cdn.example.com/a.jpg"] ∧
    keepImageUrl "https://cdn.example.com/a.jpg" = true :=
  ⟨by decide,
   (image_url_selection ["https://cdn.example.com/a.jpg", "http://localhost/b.jpg"]
      "https://cdn.example.com/a.jpg").2.2.2.1 (by decide)⟩

/-- Claim C3: for a connected eBay account, `get_valid_ebay_access_token`
returns the cached token with zero network calls while `expires_at` is more
than five minutes away; otherwise it demands a refresh token (failing with
an auth error when absent), fails with an auth error carrying the remote
status and body on a non-success refresh response, and on a successful
refresh persists the new token and computed expiry in exactly one commit
before returning the new token. -/
theorem ebay_token_lifecycle (now : ℤ) (resp : TokenResponse) (db : Db) (uid : Nat)
    (a : AccountRow) (tok : String)
    (hfind : findAccount db uid "ebay" = some a)
    (htok : a.accessToken = some tok) :
    (tokenFresh now a.tokenExpiresAt = true →
      getValidEbayAccessToken now resp db uid = ⟨.ok tok, db, 0, 0⟩) ∧
    (tokenFresh now a.tokenExpiresAt = false → a.refreshToken = none →
      getValidEbayAccessToken now resp db uid =
        ⟨.authError "No refresh_token for eBay account", db, 0, 0⟩) ∧
    (∀ rt, tokenFresh now a.tokenExpiresAt = false → a.refreshToken = some rt →
      resp.status ≠ 200 →
      getValidEbayAccessToken now resp db uid =
        ⟨.authError ("Failed to refresh eBay token: " ++ toString resp.status ++ " " ++ resp.body),
          db, 1, 0⟩) ∧
    (∀ rt newTok, tokenFresh now a.tokenExpiresAt = false → a.refreshToken = some rt →
      resp.status = 200 →
      resp.accessToken = some newTok →
      (getValidEbayAccessToken now resp db uid).outcome = .ok newTok ∧
      (getValidEbayAccessToken now resp db uid).networkCalls = 1 ∧
      (getValidEbayAccessToken now resp db uid).commits = 1 ∧
      findAccount (getValidEbayAccessToken now resp db uid).db uid "ebay" =
        some (refreshMut now resp newTok a) ∧
      (getValidEbayAccessToken now resp db uid).db.links = db.links ∧
      (getValidEbayAccessToken now resp db uid).db.listings = db.listings) := by
  refine ⟨?_, ?_, ?_, ?_⟩
  · intro hfresh
    simp [getValidEbayAccessToken, hfind, htok, hfresh]
  · intro hstale hrt
    simp [getValidEbayAccessToken, hfind, htok, hstale, hrt]
  · intro rt hstale hrt hbad
    simp [getValidEbayAccessToken, hfind, htok, hstale, hrt, hbad]
  · intro rt newTok hstale hrt hok hnew
    have hupd : getValidEbayAccessToken now resp db uid =
        ⟨.ok newTok, { db with
            accounts := replaceFirst (isAccountOf uid "ebay") (refreshMut now resp newTok) db.accounts },
          1, 1⟩ := by
      simp [getValidEbayAccessToken, hfind, htok, hstale, hrt, hok, hnew]
    rw [hupd]
    refine ⟨rfl, rfl, rfl, ?_, rfl, rfl⟩
    show List.find? (isAccountOf uid "ebay")
        (replaceFirst (isAccountOf uid "ebay") (refreshMut now resp newTok) db.accounts) = _
    rw [find?_replaceFirst (isAccountOf uid "ebay") (refreshMut now resp newTok) db.accounts
      (fun x hx => hx)]
    rw [show List.find? (isAccountOf uid "ebay") db.accounts = some a from hfind]
    rfl

/-- Witness for C3: all four cases at concrete accounts and responses
(fresh token at `now+10min`, stale at `now+2min`). -/
theorem ebay_token_lifecycle_witness :
    getValidEbayAccessToken 1000 fixRespOk (fixTokenDb (some 1600) none) 7 =
      ⟨.ok "cached-token", fixTokenDb (some 1600) none, 0, 0⟩ ∧
    getValidEbayAccessToken 1000 fixRespOk (fixTokenDb (some 1120) none) 7 =
      ⟨.authError "No refresh_token for eBay account", fixTokenDb (some 1120) none, 0, 0⟩ ∧
    getValidEbayAccessToken 1000 fixRespBad (fixTokenDb (some 1120) (some "rt")) 7 =
      ⟨.authError "Failed to refresh eBay token: 400 invalid_grant",
        fixTokenDb (some 1120) (some "rt"), 1, 0⟩ ∧
    (getValidEbayAccessToken 1000 fixRespOk (fixTokenDb (some 1120) (some "rt")) 7).outcome =
      .ok "fresh-token" ∧
    (getValidEbayAccessToken 1000 fixRespOk (fixTokenDb (some 1120) (some "rt")) 7).commits = 1 := by
  refine ⟨?_, ?_, ?_, ?_, ?_⟩
  · exact (ebay_token_lifecycle 1000 fixRespOk (fixTokenDb (some 1600) none) 7
      (fixAccount (some 1600) none) "cached-token" (by decide) (by decide)).1 (by decide)
  · exact (ebay_token_lifecycle 1000 fixRespOk (fixTokenDb (some 1120) none) 7
      (fixAccount (some 1120) none) "cached-token" (by decide) (by decide)).2.1
      (by decide) (by decide)
  · exact (ebay_token_lifecycle 1000 fixRespBad (fixTokenDb (some 1120) (some "rt")) 7
      (fixAccount (some 1120) (some "rt")) "cached-token" (by decide) (by decide)).2.2.1
      "rt" (by decide) (by decide) (by decide)
  · exact ((ebay_token_lifecycle 1000 fixRespOk (fixTokenDb (some 1120) (some "rt")) 7
      (fixAccount (some 1120) (some "rt")) "cached-token" (by decide) (by decide)).2.2.2
      "rt" "fresh-token" (by decide) (by decide) (by decide) (by decide)).1
  · exact ((ebay_token_lifecycle 1000 fixRespOk (fixTokenDb (some 1120) (some "rt")) 7
      (fixAccount (some 1120) (some "rt")) "cached-token" (by decide) (by decide)).2.2.2
      "rt" "fresh-token" (by decide) (by decide) (by decide) (by decide)).2.2.1

/-- Claim C1 (amended): when policy resolution yields no complete policy
set, `publish_to_ebay` fails with the MISSING_POLICIES config error and
aborts before the inventory/offer/publish stages: no marketplace-link row
or image row is touched.  The failed invocation may nonetheless already
have written persistent state: the sanitized sku is committed onto the
listing row before policy resolution whenever it differs from the stored
sku, and the pre-abort remote calls (merchant location, policy requests)
may have refreshed a stale access token, committing the updated account row
exactly as `get_valid_ebay_access_token` does.  Only when the stored sku
was already sanitized and no refresh occurred is the database unchanged. -/
theorem ebay_publish_missing_policies (sb : Bool) (uid lid : Nat) (o : EbayOracle) (db : Db)
    (listing : ListingRow)
    (hfound : findOwnedListing db lid uid = some listing)
    (hpol : o.policies = none) :
    (publishToEbay sb uid lid o db).1 = .missingPolicies ∧
    (publishToEbay sb uid lid o db).2.links = db.links ∧
    (publishToEbay sb uid lid o db).2.images = db.images ∧
    (publishToEbay sb uid lid o db).2.nextId = db.nextId ∧
    (publishToEbay sb uid lid o db).2.accounts = (applyTokenRefresh uid o db).accounts ∧
    (publishToEbay sb uid lid o db).2 = applyTokenRefresh uid o (skuStep uid lid listing db) ∧
    (listing.sku = some (computeSku listing uid) → o.tokenRefreshed = none →
      (publishToEbay sb uid lid o db).2 = db) := by
  have hdb : (publishToEbay sb uid lid o db).2 =
      applyTokenRefresh uid o (skuStep uid lid listing db) := by
    simp [publishToEbay, hfound, hpol]
  have hout : (publishToEbay sb uid lid o db).1 = .missingPolicies := by
    simp [publishToEbay, hfound, hpol]
  refine ⟨hout, ?_, ?_, ?_, ?_, hdb, ?_⟩
  · rw [hdb, applyTokenRefresh_links, skuStep_links]
  · rw [hdb, applyTokenRefresh_images, skuStep_images]
  · rw [hdb, applyTokenRefresh_nextId, skuStep_nextId]
  · rw [hdb]
    exact applyTokenRefresh_accounts_congr uid o _ db (skuStep_accounts uid lid listing db)
  · intro hsk htr
    rw [hdb, applyTokenRefresh_none uid o _ htr]
    unfold skuStep
    rw [if_pos hsk]

/-- Counterexample for C1 as stated: a listing with a NULL sku.  Policy
resolution comes back empty, the call fails with MISSING_POLICIES — and the
database is no longer equal to its initial state (the synthesized sku was
committed onto the listing row before the abort).  With a stale token a
pre-abort refresh moreover commits an updated account row. -/
theorem ebay_publish_missing_policies_cx :
    (publishToEbay false 1 1 fixOracleNoPol fixDb).1 = .missingPolicies ∧
    (publishToEbay false 1 1 fixOracleNoPol fixDb).2 ≠ fixDb ∧
    (publishToEbay false 1 1 fixOracleNoPol fixDb).2.links = fixDb.links ∧
    (publishToEbay false 1 1 fixOracleNoPolRefresh fixDbAcct).1 = .missingPolicies ∧
    (publishToEbay false 1 1 fixOracleNoPolRefresh fixDbAcct).2.accounts ≠ fixDbAcct.accounts := by
  refine ⟨by decide, by decide, by decide, by decide, by decide⟩

/-- Witness for C1. -/
theorem ebay_publish_missing_policies_witness :
    findOwnedListing fixDb 1 1 = some fixListing ∧
    (publishToEbay false 1 1 fixOracleNoPol fixDb).1 = .missingPolicies ∧
    (publishToEbay false 1 1 fixOracleNoPol fixDb).2.links = fixDb.links :=
  ⟨by decide,
   (ebay_publish_missing_policies false 1 1 fixOracleNoPol fixDb fixListing (by decide) rfl).1,
   (ebay_publish_missing_policies false 1 1 fixOracleNoPol fixDb fixListing (by decide) rfl).2.1⟩

/-- Claim C6: if every (listing, marketplace) pair has at most one link row,
any number of publish / prepare-offer invocations preserves that bound; and
two sequential successful publishes of the same pair starting from a
pair-free state leave exactly one stored row, the second call mutating the
row the first call created (same primary key). -/
theorem link_rows_unique (db : Db) (cs : List MarketCall)
    (h : ∀ l m, linkCountFor db l m ≤ 1) :
    (∀ l m, linkCountFor (runMarketCalls cs db) l m ≤ 1) ∧
    (∀ sb uid lid o1 o2 i1 i2,
      linkCountFor db lid "ebay" = 0 →
      (publishToEbay sb uid lid o1 db).1 = .published i1 →
      (publishToEbay sb uid lid o2 (publishToEbay sb uid lid o1 db).2).1 = .published i2 →
      linkCountFor (publishToEbay sb uid lid o2 (publishToEbay sb uid lid o1 db).2).2
        lid "ebay" = 1 ∧
      ∃ r1 r2,
        findLink (publishToEbay sb uid lid o1 db).2 lid "ebay" = some r1 ∧
        findLink (publishToEbay sb uid lid o2 (publishToEbay sb uid lid o1 db).2).2
          lid "ebay" = some r2 ∧
        r2.rowId = r1.rowId) := by
  refine ⟨linkCountFor_runMarketCalls_le cs db h, ?_⟩
  intro sb uid lid o1 o2 i1 i2 h0 hp1 hp2
  obtain ⟨l1, hf1, -, hdb1⟩ := publishToEbay_published_shape sb uid lid o1 db i1 hp1
  obtain ⟨l2, hf2, -, hdb2⟩ :=
    publishToEbay_published_shape sb uid lid o2 (publishToEbay sb uid lid o1 db).2 i2 hp2
  have hz : findLink (applyTokenRefresh uid o1 (skuStep uid lid l1 db)) lid "ebay" = none := by
    rw [findLink_applyTokenRefresh, findLink_skuStep]
    exact (linkCountFor_zero_iff_find db lid "ebay").mp h0
  have hr1 : findLink (publishToEbay sb uid lid o1 db).2 lid "ebay" =
      some (publishLinkMut sb o1.publishListingId (computeSku l1 uid) (offerIdOf o1)
        (newLink (applyTokenRefresh uid o1 (skuStep uid lid l1 db)).nextId lid "ebay")) := by
    rw [hdb1]
    exact findLink_upsert_none _ lid "ebay" (keepsPair_publishLinkMut _ _ _ _) hz
  have hc1 : linkCountFor (publishToEbay sb uid lid o1 db).2 lid "ebay" = 1 := by
    rw [hdb1, linkCountFor_upsert_self _ _ _ (keepsPair_publishLinkMut _ _ _ _),
      linkCountFor_applyTokenRefresh, linkCountFor_skuStep, h0]
    simp
  have hfind2 : findLink
      (applyTokenRefresh uid o2 (skuStep uid lid l2 (publishToEbay sb uid lid o1 db).2))
      lid "ebay" =
      some (publishLinkMut sb o1.publishListingId (computeSku l1 uid) (offerIdOf o1)
        (newLink (applyTokenRefresh uid o1 (skuStep uid lid l1 db)).nextId lid "ebay")) := by
    rw [findLink_applyTokenRefresh, findLink_skuStep]
    exact hr1
  have hr2 : findLink (publishToEbay sb uid lid o2 (publishToEbay sb uid lid o1 db).2).2
      lid "ebay" =
      some (publishLinkMut sb o2.publishListingId (computeSku l2 uid) (offerIdOf o2)
        (publishLinkMut sb o1.publishListingId (computeSku l1 uid) (offerIdOf o1)
          (newLink (applyTokenRefresh uid o1 (skuStep uid lid l1 db)).nextId lid "ebay"))) := by
    rw [hdb2]
    exact findLink_upsert_some _ lid "ebay" (keepsPair_publishLinkMut _ _ _ _) _ hfind2
  have hc2 : linkCountFor (publishToEbay sb uid lid o2 (publishToEbay sb uid lid o1 db).2).2
      lid "ebay" = 1 := by
    rw [hdb2, linkCountFor_upsert_self _ _ _ (keepsPair_publishLinkMut _ _ _ _),
      linkCountFor_applyTokenRefresh, linkCountFor_skuStep, hc1]
    simp
  exact ⟨hc2, _, _, hr1, hr2, rfl⟩

/-- Witness for C6: two successful publishes of listing 1 starting from a
link-free database leave a single link row. -/
theorem link_rows_unique_witness :
    linkCountFor fixDb 1 "ebay" = 0 ∧
    (publishToEbay false 1 1 fixOracleOk fixDb).1 = .published (some "L1") ∧
    linkCountFor
      (publishToEbay false 1 1 fixOracleOk (publishToEbay false 1 1 fixOracleOk fixDb).2).2
      1 "ebay" = 1 := by
  refine ⟨by decide, by decide, ?_⟩
  exact (((link_rows_unique fixDb [] (fun l m => by simp [linkCountFor, fixDb])).2)
    false 1 1 fixOracleOk fixOracleOk (some "L1") (some "L1")
    (by decide) (by decide) (by decide)).1

/-- Claim C7: inventory reconciliation.  For each remote sku matching a
local listing owned by the caller, the link row is upserted with status
`offer_created` unless it is already `published` (then left unchanged);
falsy skus and skus with no matching listing are skipped without error; the
whole batch commits exactly once at the end, and on any exception (injected
at any point of the loop) the entire batch is rolled back, leaving the
committed state untouched. -/
theorem sync_inventory_batch (uid : Nat) (fetchStatus : Nat) (items : List RemoteItem)
    (crash : Option Nat) (s : Sess) (hws : s.working = s.committed) :
    (fetchStatus ≠ 200 →
      (runSync uid fetchStatus items crash s).2.committed = s.committed ∧
      (runSync uid fetchStatus items crash s).2.commits = s.commits) ∧
    (∀ k, crash = some k →
      (runSync uid fetchStatus items crash s).2.committed = s.committed ∧
      (runSync uid fetchStatus items crash s).2.commits = s.commits) ∧
    (fetchStatus = 200 → crash = none →
      (runSync uid fetchStatus items crash s).1 = true ∧
      (runSync uid fetchStatus items crash s).2.committed =
        items.foldl (syncStep uid) s.committed ∧
      (runSync uid fetchStatus items crash s).2.commits = s.commits + 1) ∧
    (∀ db item, (item.sku = none ∨ item.sku = some "") → syncStep uid db item = db) ∧
    (∀ db item sk, item.sku = some sk → sk ≠ "" → findListingBySku db uid sk = none →
      syncStep uid db item = db) ∧
    (∀ db item sk l lm, item.sku = some sk → sk ≠ "" → findListingBySku db uid sk = some l →
      findLink db l.id "ebay" = some lm → lm.status = some "published" →
      syncStep uid db item = db) ∧
    (∀ db item sk l lm, item.sku = some sk → sk ≠ "" → findListingBySku db uid sk = some l →
      findLink db l.id "ebay" = some lm → lm.status ≠ some "published" →
      findLink (syncStep uid db item) l.id "ebay" =
        some { lm with status := some "offer_created" }) ∧
    (∀ db item sk l, item.sku = some sk → sk ≠ "" → findListingBySku db uid sk = some l →
      findLink db l.id "ebay" = none →
      findLink (syncStep uid db item) l.id "ebay" =
        some { newLink db.nextId l.id "ebay" with status := some "offer_created" }) := by
  refine ⟨?_, ?_, ?_, ?_, ?_, ?_, ?_, ?_⟩
  · intro hf
    unfold runSync
    rw [if_pos hf]
    exact ⟨rfl, rfl⟩
  · intro k hk
    by_cases hf : fetchStatus ≠ 200
    · unfold runSync
      rw [if_pos hf]
      exact ⟨rfl, rfl⟩
    · unfold runSync
      rw [if_neg hf]
      subst hk
      constructor
      · show ((items.take k).foldl (fun t it => t.mutate (fun d => syncStep uid d it)) s).committed =
          s.committed
        exact foldl_mutate_committed _ _ s
      · show ((items.take k).foldl (fun t it => t.mutate (fun d => syncStep uid d it)) s).commits =
          s.commits
        exact foldl_mutate_commits _ _ s
  · intro hf hc
    have hf' : ¬fetchStatus ≠ 200 := by simp [hf]
    unfold runSync
    rw [if_neg hf']
    subst hc
    refine ⟨rfl, ?_, ?_⟩
    · show (items.foldl (fun t it => t.mutate (fun d => syncStep uid d it)) s).working =
        items.foldl (syncStep uid) s.committed
      rw [foldl_mutate_working, hws]
    · show (items.foldl (fun t it => t.mutate (fun d => syncStep uid d it)) s).commits + 1 =
        s.commits + 1
      rw [foldl_mutate_commits]
  · intro db item hsku
    rcases hsku with h | h <;> simp [syncStep, h]
  · intro db item sk hsku hne hnol
    simp [syncStep, hsku, hne, hnol]
  · intro db item sk l lm hsku hne hfl hflm hpub
    simp only [syncStep, hsku, hne, hfl]
    show upsertLink db l.id "ebay" syncMut = db
    unfold upsertLink
    rw [hflm]
    have : replaceFirst (isLinkFor l.id "ebay") syncMut db.links = db.links := by
      apply replaceFirst_eq_of_fix _ _ _ lm hflm
      unfold syncMut
      rw [if_pos hpub]
    rw [this]
  · intro db item sk l lm hsku hne hfl hflm hpub
    simp only [syncStep, hsku, hne, hfl]
    show findLink (upsertLink db l.id "ebay" syncMut) l.id "ebay" = _
    rw [findLink_upsert_some _ _ _ keepsPair_syncMut lm hflm]
    unfold syncMut
    rw [if_neg hpub]
  · intro db item sk l hsku hne hfl hnl
    simp only [syncStep, hsku, hne, hfl]
    show findLink (upsertLink db l.id "ebay" syncMut) l.id "ebay" = _
    rw [findLink_upsert_none _ _ _ keepsPair_syncMut hnl]
    unfold syncMut
    rw [if_neg (by simp [newLink])]

/-- Witness for C7: a one-item batch matching a stored listing; success
commits once, a crash right after the first iteration leaves the committed
state untouched. -/
theorem sync_inventory_batch_witness :
    (runSync 7 200 [⟨some "SK1"⟩] none (Sess.fresh fixSyncDb)).2.committed =
      [(⟨some "SK1"⟩ : RemoteItem)].foldl (syncStep 7) fixSyncDb ∧
    (runSync 7 200 [⟨some "SK1"⟩] none (Sess.fresh fixSyncDb)).2.commits = 1 ∧
    (runSync 7 200 [⟨some "SK1"⟩] (some 1) (Sess.fresh fixSyncDb)).2.committed = fixSyncDb := by
  refine ⟨?_, ?_, ?_⟩
  · exact ((sync_inventory_batch 7 200 [⟨some "SK1"⟩] none (Sess.fresh fixSyncDb)
      rfl).2.2.1 rfl rfl).2.1
  · exact ((sync_inventory_batch 7 200 [⟨some "SK1"⟩] none (Sess.fresh fixSyncDb)
      rfl).2.2.1 rfl rfl).2.2
  · exact ((sync_inventory_batch 7 200 [⟨some "SK1"⟩] (some 1) (Sess.fresh fixSyncDb)
      rfl).2.1 1 rfl).1

/-! ### The sanitizer: collapse, strip and fixpoint lemmas -/

theorem sanitizeSku_eq_stages (x : String) :
    sanitizeSku x =
      if (sanitizeStages x.data).isEmpty then "SKU" else String.mk (sanitizeStages x.data) :=
  rfl

theorem mem_map_repl_allowed (l : List Char) :
    ∀ c ∈ l.map (fun c => if skuAllowed c then c else '-'), skuAllowed c = true := by
  intro c hc
  rcases List.mem_map.mp hc with ⟨b, -, hb⟩
  by_cases hba : skuAllowed b = true
  · rw [if_pos hba] at hb
    rw [← hb]
    exact hba
  · rw [if_neg hba] at hb
    rw [← hb]
    decide

theorem mem_map_repl_no_underscore (l : List Char) (h : ∀ c ∈ l, c ≠ '_') :
    ∀ c ∈ l.map (fun c => if skuAllowed c then c else '-'), c ≠ '_' := by
  intro c hc
  rcases List.mem_map.mp hc with ⟨b, hbl, hb⟩
  by_cases hba : skuAllowed b = true
  · rw [if_pos hba] at hb
    rw [← hb]
    exact h b hbl
  · rw [if_neg hba] at hb
    rw [← hb]
    decide

theorem mem_collapseDashes : ∀ (l : List Char) (c : Char), c ∈ collapseDashes l → c ∈ l
  | [], c => by simp [collapseDashes]
  | [a], c => by simp [collapseDashes]
  | a :: b :: rest, c => by
    intro hc
    unfold collapseDashes at hc
    split at hc
    · exact List.mem_cons_of_mem a (mem_collapseDashes (b :: rest) c hc)
    · rcases List.mem_cons.mp hc with h | h
      · exact h ▸ List.mem_cons_self a _
      · exact List.mem_cons_of_mem a (mem_collapseDashes (b :: rest) c h)

theorem head?_collapseDashes : ∀ (l : List Char), (collapseDashes l).head? = l.head?
  | [] => rfl
  | [a] => rfl
  | a :: b :: rest => by
    unfold collapseDashes
    split
    · rename_i h
      simp only [Bool.and_eq_true, beq_iff_eq] at h
      rw [head?_collapseDashes (b :: rest)]
      simp [h.1, h.2]
    · rfl

theorem chain'_collapseDashes : ∀ (l : List Char), List.Chain' dashFree (collapseDashes l)
  | [] => List.chain'_nil
  | [a] => List.chain'_singleton a
  | a :: b :: rest => by
    unfold collapseDashes
    split
    · exact chain'_collapseDashes (b :: rest)
    · rename_i h
      rw [List.chain'_cons']
      refine ⟨?_, chain'_collapseDashes (b :: rest)⟩
      intro y hy
      rw [head?_collapseDashes (b :: rest)] at hy
      simp only [List.head?_cons, Option.mem_def, Option.some.injEq] at hy
      subst hy
      intro hab
      apply h
      simp [hab.1, hab.2]

theorem collapseDashes_eq_self : ∀ (l : List Char),
    List.Chain' dashFree l → collapseDashes l = l
  | [] => fun _ => rfl
  | [a] => fun _ => rfl
  | a :: b :: rest => fun h => by
    have hab : dashFree a b := (List.chain'_cons.mp h).1
    have hne : ¬((a == '-' && b == '-') = true) := by
      intro hc
      simp only [Bool.and_eq_true, beq_iff_eq] at hc
      exact hab ⟨hc.1, hc.2⟩
    unfold collapseDashes
    rw [if_neg hne, collapseDashes_eq_self (b :: rest) (List.chain'_cons.mp h).2]

theorem dropWhile_eq_self_of_head (p : α → Bool) : ∀ (l : List α),
    (∀ a, l.head? = some a → p a = false) → l.dropWhile p = l
  | [] => fun _ => rfl
  | a :: as => fun h => by
    rw [List.dropWhile_cons, h a rfl]
    simp

theorem head?_dropWhile_false (p : α → Bool) : ∀ (l : List α) (a : α),
    (l.dropWhile p).head? = some a → p a = false
  | [], a => by simp [List.dropWhile]
  | b :: bs, a => by
    rw [List.dropWhile_cons]
    split
    · exact head?_dropWhile_false p bs a
    · rename_i h
      intro hh
      simp only [List.head?_cons, Option.some.injEq] at hh
      subst hh
      exact Bool.eq_false_iff.mpr h

theorem getLast?_of_suffix {l s : List α} (h : s <:+ l) (hne : s ≠ []) :
    s.getLast? = l.getLast? := by
  obtain ⟨t, rfl⟩ := h
  exact (List.getLast?_append_of_ne_nil t hne).symm

theorem mem_stripChars (cs l : List Char) : ∀ c ∈ stripChars cs l, c ∈ l := by
  intro c hc
  unfold stripChars at hc
  rw [List.mem_reverse] at hc
  have h1 : c ∈ (l.dropWhile (cs.contains ·)).reverse :=
    (List.dropWhile_sublist _).mem hc
  rw [List.mem_reverse] at h1
  exact (List.dropWhile_sublist _).mem h1

theorem chain'_symm_reverse {m : List Char} (hm : List.Chain' dashFree m) :
    List.Chain' dashFree m.reverse := by
  rw [List.chain'_reverse]
  exact List.Chain'.imp (fun a b hab => fun hc => hab ⟨hc.2, hc.1⟩) hm

theorem chain'_stripChars (cs l : List Char) (h : List.Chain' dashFree l) :
    List.Chain' dashFree (stripChars cs l) := by
  unfold stripChars
  apply chain'_symm_reverse
  apply List.Chain'.suffix _ (List.dropWhile_suffix _)
  apply chain'_symm_reverse
  exact List.Chain'.suffix h (List.dropWhile_suffix _)

theorem stripChars_eq_self (cs l : List Char)
    (hh : ∀ a, l.head? = some a → cs.contains a = false)
    (hl : ∀ a, l.getLast? = some a → cs.contains a = false) : stripChars cs l = l := by
  unfold stripChars
  rw [dropWhile_eq_self_of_head _ l hh]
  rw [dropWhile_eq_self_of_head _ l.reverse
    (fun a ha => hl a (by rwa [List.head?_reverse] at ha))]
  exact List.reverse_reverse l

theorem stripChars_getLast?_false (cs l : List Char) (a : Char)
    (h : (stripChars cs l).getLast? = some a) : cs.contains a = false := by
  unfold stripChars at h
  rw [List.getLast?_reverse] at h
  exact head?_dropWhile_false _ _ a h

theorem stripChars_head?_false (cs l : List Char) (a : Char)
    (h : (stripChars cs l).head? = some a) : cs.contains a = false := by
  unfold stripChars at h
  rw [List.head?_reverse] at h
  have hne : List.dropWhile (cs.contains ·) (l.dropWhile (cs.contains ·)).reverse ≠ [] := by
    intro hz
    rw [hz] at h
    cases h
  rw [getLast?_of_suffix (List.dropWhile_suffix _) hne, List.getLast?_reverse] at h
  exact head?_dropWhile_false _ _ a h

theorem contains_singleton_false_iff (c a : Char) : ([c].contains a) = false ↔ a ≠ c := by
  constructor
  · intro h hc
    subst hc
    simp at h
  · intro h
    simp [h]

/-- Every list of allowed, underscore-free characters with no adjacent
dashes and no leading/trailing dash is a fixpoint of the sanitizer. -/
theorem sanitizeSku_fixpoint (l : List Char) (hne : l ≠ [])
    (hall : ∀ c ∈ l, skuAllowed c = true)
    (hund : ∀ c ∈ l, c ≠ '_')
    (hchain : List.Chain' dashFree l)
    (hh : ∀ a, l.head? = some a → a ≠ '-')
    (hl : ∀ a, l.getLast? = some a → a ≠ '-') :
    sanitizeSku (String.mk l) = String.mk l := by
  have hstage : sanitizeStages l = l := by
    unfold sanitizeStages
    rw [List.map_congr_left (fun c hc => if_pos (hall c hc)), List.map_id']
    rw [collapseDashes_eq_self l hchain]
    rw [stripChars_eq_self ['-'] l
      (fun a ha => (contains_singleton_false_iff '-' a).mpr (hh a ha))
      (fun a ha => (contains_singleton_false_iff '-' a).mpr (hl a ha))]
    exact stripChars_eq_self ['_'] l
      (fun a ha => (contains_singleton_false_iff '_' a).mpr
        (hund a (List.mem_of_mem_head? ha)))
      (fun a ha => (contains_singleton_false_iff '_' a).mpr
        (hund a (List.mem_of_mem_getLast? ha)))
  rw [sanitizeSku_eq_stages]
  show (if (sanitizeStages l).isEmpty then "SKU" else String.mk (sanitizeStages l)) = _
  rw [hstage]
  rw [if_neg (by simp [List.isEmpty_iff, hne])]

/-- On inputs without an underscore the sanitizer is idempotent. -/
theorem sanitizeSku_idem_no_underscore (x : String) (hx : ∀ c ∈ x.data, c ≠ '_') :
    sanitizeSku (sanitizeSku x) = sanitizeSku x := by
  have hall1 := mem_map_repl_allowed x.data
  have hund1 := mem_map_repl_no_underscore x.data hx
  have hall2 : ∀ c ∈ collapseDashes (x.data.map (fun c => if skuAllowed c then c else '-')),
      skuAllowed c = true :=
    fun c hc => hall1 c (mem_collapseDashes _ c hc)
  have hund2 : ∀ c ∈ collapseDashes (x.data.map (fun c => if skuAllowed c then c else '-')),
      c ≠ '_' :=
    fun c hc => hund1 c (mem_collapseDashes _ c hc)
  have hallw : ∀ c ∈ stripChars ['-']
      (collapseDashes (x.data.map (fun c => if skuAllowed c then c else '-'))),
      skuAllowed c = true :=
    fun c hc => hall2 c (mem_stripChars _ _ c hc)
  have hundw : ∀ c ∈ stripChars ['-']
      (collapseDashes (x.data.map (fun c => if skuAllowed c then c else '-'))),
      c ≠ '_' :=
    fun c hc => hund2 c (mem_stripChars _ _ c hc)
  have hchw : List.Chain' dashFree (stripChars ['-']
      (collapseDashes (x.data.map (fun c => if skuAllowed c then c else '-')))) :=
    chain'_stripChars _ _ (chain'_collapseDashes _)
  have hhw : ∀ a, (stripChars ['-']
      (collapseDashes (x.data.map (fun c => if skuAllowed c then c else '-')))).head? =
        some a → a ≠ '-' :=
    fun a ha => (contains_singleton_false_iff '-' a).mp (stripChars_head?_false _ _ a ha)
  have hlw : ∀ a, (stripChars ['-']
      (collapseDashes (x.data.map (fun c => if skuAllowed c then c else '-')))).getLast? =
        some a → a ≠ '-' :=
    fun a ha => (contains_singleton_false_iff '-' a).mp (stripChars_getLast?_false _ _ a ha)
  have hs3w : sanitizeStages x.data = stripChars ['-']
      (collapseDashes (x.data.map (fun c => if skuAllowed c then c else '-'))) := by
    unfold sanitizeStages
    exact stripChars_eq_self ['_'] _
      (fun a ha => (contains_singleton_false_iff '_' a).mpr
        (hundw a (List.mem_of_mem_head? ha)))
      (fun a ha => (contains_singleton_false_iff '_' a).mpr
        (hundw a (List.mem_of_mem_getLast? ha)))
  by_cases hwe : stripChars ['-']
      (collapseDashes (x.data.map (fun c => if skuAllowed c then c else '-'))) = []
  · have hsx : sanitizeSku x = "SKU" := by
      rw [sanitizeSku_eq_stages, hs3w, hwe]
      rfl
    rw [hsx]
    decide
  · have hsx : sanitizeSku x = String.mk (stripChars ['-']
        (collapseDashes (x.data.map (fun c => if skuAllowed c then c else '-')))) := by
      rw [sanitizeSku_eq_stages, hs3w]
      rw [if_neg (by simp [List.isEmpty_iff, hwe])]
    rw [hsx]
    exact sanitizeSku_fixpoint _ hwe hallw hundw hchw hhw hlw

/-- Claim C2 (amended): the sanitizer replaces every character outside the
allowed class (letters, digits, underscore, slash, dash) with a dash,
collapses dash runs, then trims leading/trailing dashes and afterwards
leading/trailing underscores, defaulting to "SKU" when empty; the two
concrete examples hold, and the sanitizer is idempotent on every input that
contains no underscore.  (Unrestricted idempotence fails: stripping
underscores can expose a dash that only a second pass would remove.) -/
theorem sanitize_sku_spec (x : String) :
    sanitizeSku "My Item #1!" = "My-Item-1" ∧
    sanitizeSku "" = "SKU" ∧
    ((∀ c ∈ x.data, c ≠ '_') → sanitizeSku (sanitizeSku x) = sanitizeSku x) :=
  ⟨by decide, by decide, fun h => sanitizeSku_idem_no_underscore x h⟩

/-- Counterexample for C2 as stated: `sanitize("_-a") = "-a"` — the result
still carries a leading dash (the code strips dashes before underscores),
and a second application changes it to "a", refuting idempotence. -/
theorem sanitize_sku_spec_cx :
    sanitizeSku "_-a" = "-a" ∧
    sanitizeSku (sanitizeSku "_-a") = "a" ∧
    sanitizeSku (sanitizeSku "_-a") ≠ sanitizeSku "_-a" ∧
    (sanitizeSku "_-a").data.head? = some '-' := by
  refine ⟨by decide, by decide, by decide, by decide⟩

/-- Witness for C2 at the underscore-free example input. -/
theorem sanitize_sku_spec_witness :
    (∀ c ∈ ("My Item #1!" : String).data, c ≠ '_') ∧
    sanitizeSku (sanitizeSku "My Item #1!") = sanitizeSku "My Item #1!" :=
  ⟨by decide, (sanitize_sku_spec "My Item #1!").2.2 (by decide)⟩

end ResaleHub
